import Mathlib

/-!
A verification development for the `python-disruptor-example` repository.

The repository contains demo programs (`main.py`, `batch_json_example.py`,
`fault_tolerant_example.py`, `benchmark.py`) built on the external `disruptor`
package.  The consumer classes and the `measure_performance` decorator are
embedded here directly from their Python sources; the Disruptor core itself
(ring buffer, cursors, dispatcher, error routing) is not part of the
repository's sources and is modelled from the specification where a statement
needs it.

Conventions of the embedding:
* Python lists become Lean `List`s; item payloads are an abstract type `α`.
* Mutable objects become records threaded through functions.
* A raised exception becomes an explicit `Option String` component of the
  result (`none` = returned normally, `some e` = the exception `e` escaped),
  paired with the object state at the moment the exception left the method.
* External effects (file writes, checkpoint writes, log lines) are recorded
  in ghost fields (`history`, `dlq_files`, `checkpoints`, ...) so that
  statements about them can be made; these fields are never read by the
  embedded control flow.
-/

namespace DisruptorExample

/-! ### `BatchJsonConsumer` (src/batch_json_example.py) -/

/-- The mutable state of a `BatchJsonConsumer`
(`src/batch_json_example.py`, `__init__`): `batch_size`, `processed_count`,
`batch_buffer` and `file_counter` are the fields the batching logic reads and
writes.  `history` is a ghost field recording, in order, every batch passed to
`_process_batch` (in the source each such batch becomes one Parquet file). -/
structure BatchJsonConsumer (α : Type) where
  batch_size : Nat
  processed_count : Nat
  batch_buffer : List α
  file_counter : Nat
  history : List (List α)
deriving Repr, DecidableEq

namespace BatchJsonConsumer

/-- A freshly constructed consumer: `processed_count = 0`, empty buffer,
`file_counter = 0`, no batches processed yet. -/
def init (α : Type) (B : Nat) : BatchJsonConsumer α :=
  { batch_size := B, processed_count := 0, batch_buffer := [], file_counter := 0, history := [] }

/-- `BatchJsonConsumer._process_batch(batch)`: increments `file_counter`,
writes the batch to a Parquet file (recorded in the ghost `history`), and adds
`len(batch)` to `processed_count`.  The sleep, the DataFrame conversion and
the statistics printout have no effect on these fields. -/
def process_batch (s : BatchJsonConsumer α) (batch : List α) : BatchJsonConsumer α :=
  { s with
    file_counter := s.file_counter + 1
    processed_count := s.processed_count + batch.length
    history := s.history ++ [batch] }

/-- The `while len(self.batch_buffer) >= self.batch_size` loop in
`BatchJsonConsumer.consume`: repeatedly splits off the first `batch_size`
buffered elements and processes them.  (With `batch_size = 0` the Python loop
would never terminate; the model stops instead, and every statement below
assumes `batch_size ≥ 1`.) -/
def consumeLoop (s : BatchJsonConsumer α) : BatchJsonConsumer α :=
  if h : 0 < s.batch_size ∧ s.batch_size ≤ s.batch_buffer.length then
    consumeLoop
      (process_batch { s with batch_buffer := s.batch_buffer.drop s.batch_size }
        (s.batch_buffer.take s.batch_size))
  else s
termination_by s.batch_buffer.length
decreasing_by simp [process_batch]; omega

/-- `BatchJsonConsumer.consume(elements)`: appends `elements` to the buffer
and drains complete batches. -/
def consume (s : BatchJsonConsumer α) (elements : List α) : BatchJsonConsumer α :=
  consumeLoop { s with batch_buffer := s.batch_buffer ++ elements }

/-- `BatchJsonConsumer.close()`: if the buffer is non-empty, processes it as a
final (possibly short) batch and clears it. -/
def close (s : BatchJsonConsumer α) : BatchJsonConsumer α :=
  if s.batch_buffer.isEmpty then s
  else { process_batch s s.batch_buffer with batch_buffer := [] }

/-- A whole run: a sequence of `consume` calls. -/
def runConsumes (s : BatchJsonConsumer α) (inputs : List (List α)) : BatchJsonConsumer α :=
  inputs.foldl consume s

theorem consumeLoop_batch_size (s : BatchJsonConsumer α) :
    (consumeLoop s).batch_size = s.batch_size := by
  induction s using consumeLoop.induct with
  | case1 s h ih => rw [consumeLoop, dif_pos h]; rw [ih]; rfl
  | case2 s h => rw [consumeLoop, dif_neg h]

theorem consumeLoop_content (s : BatchJsonConsumer α) :
    (consumeLoop s).history.flatten ++ (consumeLoop s).batch_buffer =
      s.history.flatten ++ s.batch_buffer := by
  induction s using consumeLoop.induct with
  | case1 s h ih =>
    rw [consumeLoop, dif_pos h]
    rw [ih]
    simp [process_batch, List.take_append_drop]
  | case2 s h => rw [consumeLoop, dif_neg h]

theorem consumeLoop_buffer_short (s : BatchJsonConsumer α) (hB : 0 < s.batch_size) :
    (consumeLoop s).batch_buffer.length < s.batch_size := by
  induction s using consumeLoop.induct with
  | case1 s h ih =>
    rw [consumeLoop, dif_pos h]
    have := ih
    simp only [process_batch] at this ⊢
    exact this h.1
  | case2 s h =>
    rw [consumeLoop, dif_neg h]
    omega

theorem consumeLoop_history_sizes (s : BatchJsonConsumer α) :
    ∀ b ∈ (consumeLoop s).history, b ∈ s.history ∨ b.length = s.batch_size := by
  induction s using consumeLoop.induct with
  | case1 s h ih =>
    rw [consumeLoop, dif_pos h]
    intro b hb
    rcases ih b hb with hmem | hlen
    · simp only [process_batch, List.mem_append, List.mem_singleton] at hmem
      rcases hmem with hmem | rfl
      · exact Or.inl hmem
      · exact Or.inr (List.length_take_of_le h.2)
    · exact Or.inr hlen
  | case2 s h =>
    rw [consumeLoop, dif_neg h]
    intro b hb
    exact Or.inl hb

theorem consumeLoop_count (s : BatchJsonConsumer α)
    (hpc : s.processed_count = s.history.flatten.length) :
    (consumeLoop s).processed_count = (consumeLoop s).history.flatten.length := by
  induction s using consumeLoop.induct with
  | case1 s h ih =>
    rw [consumeLoop, dif_pos h]
    apply ih
    simp [process_batch, hpc]
  | case2 s h => rw [consumeLoop, dif_neg h]; exact hpc

/-- The state invariant maintained between `consume` calls: the configured
batch size is unchanged, `processed_count` counts exactly the elements of the
processed batches, and every processed batch so far has exactly `B` elements. -/
def Inv (B : Nat) (s : BatchJsonConsumer α) : Prop :=
  s.batch_size = B ∧
  s.processed_count = s.history.flatten.length ∧
  ∀ b ∈ s.history, b.length = B

theorem consume_inv {B : Nat} {s : BatchJsonConsumer α} (h : Inv B s) (es : List α) :
    Inv B (consume s es) ∧
      (consume s es).history.flatten ++ (consume s es).batch_buffer =
        s.history.flatten ++ s.batch_buffer ++ es := by
  obtain ⟨hsz, hpc, hall⟩ := h
  refine ⟨⟨?_, ?_, ?_⟩, ?_⟩
  · rw [consume, consumeLoop_batch_size]; exact hsz
  · exact consumeLoop_count _ hpc
  · intro b hb
    rcases consumeLoop_history_sizes _ b hb with hmem | hlen
    · exact hall b hmem
    · rw [hlen]; exact hsz
  · rw [consume, consumeLoop_content]
    simp [List.append_assoc]

theorem runConsumes_inv {B : Nat} {s : BatchJsonConsumer α} (h : Inv B s)
    (inputs : List (List α)) :
    Inv B (runConsumes s inputs) ∧
      (runConsumes s inputs).history.flatten ++ (runConsumes s inputs).batch_buffer =
        s.history.flatten ++ s.batch_buffer ++ inputs.flatten := by
  induction inputs generalizing s with
  | nil => simpa [runConsumes] using h
  | cons es rest ih =>
    obtain ⟨h1, h2⟩ := consume_inv h es
    obtain ⟨h3, h4⟩ := ih h1
    refine ⟨h3, ?_⟩
    rw [runConsumes] at h4 ⊢
    simp only [List.foldl_cons]
    rw [h4, h2]
    simp [List.append_assoc]

theorem close_buffer (s : BatchJsonConsumer α) : (close s).batch_buffer = [] := by
  rw [close]
  split
  · next h => simpa [List.isEmpty_iff] using h
  · rfl

theorem close_history (s : BatchJsonConsumer α) :
    (close s).history.flatten = s.history.flatten ++ s.batch_buffer := by
  rw [close]
  split
  · next h => simp [List.isEmpty_iff.mp h]
  · simp [process_batch]

theorem close_count (s : BatchJsonConsumer α) :
    (close s).processed_count = s.processed_count + s.batch_buffer.length := by
  rw [close]
  split
  · next h => simp [List.isEmpty_iff.mp h]
  · simp [process_batch]

end BatchJsonConsumer

/-! ### `FaultTolerantBatchConsumer` (src/fault_tolerant_example.py) -/

/-- How one invocation of `FaultTolerantBatchConsumer._process_batch` ends:
normally, or at one of its three raise sites (the simulated 5% random
failure, the DataFrame construction `raise`, or the Parquet `write_parquet`
`raise`).  Which one occurs depends on `random` and on the filesystem, so the
embedding takes it as an oracle input. -/
inductive PBOutcome
  | ok
  | simulated
  | dfError
  | writeError
deriving Repr, DecidableEq

/-- The mutable state of a `FaultTolerantBatchConsumer`
(`src/fault_tolerant_example.py`, `__init__`).  `attempts` is a ghost counter
of `_process_batch` invocations; `history` records the batches successfully
written to Parquet; `checkpoints` the `(last_batch_number, processed_count)`
pairs written by `_save_checkpoint`; `dlq_files` the batches written to the
dead-letter queue. -/
structure FaultTolerantBatchConsumer (α : Type) where
  batch_size : Nat
  max_retries : Nat
  enable_dlq : Bool
  processed_count : Nat
  error_count : Nat
  retry_count : Nat
  batch_buffer : List α
  file_counter : Nat
  attempts : Nat
  history : List (List α)
  checkpoints : List (Nat × Nat)
  dlq_files : List (List α × String)
deriving Repr, DecidableEq

namespace FaultTolerantBatchConsumer

/-- A freshly constructed consumer (no checkpoint file present). -/
def init (α : Type) (B R : Nat) (dlq : Bool) : FaultTolerantBatchConsumer α :=
  { batch_size := B, max_retries := R, enable_dlq := dlq,
    processed_count := 0, error_count := 0, retry_count := 0,
    batch_buffer := [], file_counter := 0, attempts := 0,
    history := [], checkpoints := [], dlq_files := [] }

/-- `FaultTolerantBatchConsumer._save_checkpoint()`: writes
`(file_counter, processed_count)` to the checkpoint file (recorded in the
ghost `checkpoints`). -/
def save_checkpoint (s : FaultTolerantBatchConsumer α) : FaultTolerantBatchConsumer α :=
  { s with checkpoints := s.checkpoints ++ [(s.file_counter, s.processed_count)] }

/-- `FaultTolerantBatchConsumer._send_to_dlq(batch, error_message)`: writes
the batch to one new DLQ file (recorded in the ghost `dlq_files`); its own
`try/except` swallows any write failure, so it never raises. -/
def send_to_dlq (s : FaultTolerantBatchConsumer α) (batch : List α) (e : String) :
    FaultTolerantBatchConsumer α :=
  { s with dlq_files := s.dlq_files ++ [(batch, e)] }

/-- `FaultTolerantBatchConsumer._process_batch(batch)`.  The result pairs the
state at the moment the method returns or its exception escapes with
`none` (returned normally) or `some e` (raised `e`).  On the Parquet write
failure the source increments `file_counter`, rolls it back
(`self.file_counter -= 1`), and re-raises.  On success it increments
`file_counter`, records the written file, adds `len(batch)` to
`processed_count`, and saves a checkpoint.  (The statistics step's failure is
caught internally and only affects a printed total, so it is not an
outcome.) -/
def process_batch (o : PBOutcome) (s : FaultTolerantBatchConsumer α) (batch : List α) :
    FaultTolerantBatchConsumer α × Option String :=
  let s0 := { s with attempts := s.attempts + 1 }
  match o with
  | .simulated => (s0, some "Simulated processing error")
  | .dfError => (s0, some "Error creating DataFrame")
  | .writeError =>
    let s1 := { s0 with file_counter := s0.file_counter + 1 }
    let s2 := { s1 with file_counter := s1.file_counter - 1 }
    (s2, some "Error writing Parquet file")
  | .ok =>
    let s1 := { s0 with
      file_counter := s0.file_counter + 1
      history := s0.history ++ [batch] }
    let s2 := { s1 with processed_count := s1.processed_count + batch.length }
    (save_checkpoint s2, none)

theorem process_batch_max_retries (o : PBOutcome) (s : FaultTolerantBatchConsumer α)
    (batch : List α) : (process_batch o s batch).1.max_retries = s.max_retries := by
  cases o <;> simp [process_batch, save_checkpoint]

/-- `FaultTolerantBatchConsumer._process_batch_with_retry(batch, retry_count)`:
tries `_process_batch`; on an exception, retries (bumping `retry_count` and
recursing with `retry_count + 1`) while `retry_count < max_retries`, and
otherwise increments `error_count` and, when the DLQ is enabled, writes the
batch to it.  Every exception path is caught (`except Exception`), so the
method itself returns normally on every input; the `Option String` component
records an exception escaping the method, and is `none` in both branches. -/
def process_batch_with_retry (oracle : Nat → PBOutcome) (s : FaultTolerantBatchConsumer α)
    (batch : List α) (rc : Nat) : FaultTolerantBatchConsumer α × Option String :=
  match h : process_batch (oracle s.attempts) s batch with
  | (s', none) => (s', none)
  | (s', some e) =>
    if rc < s.max_retries then
      process_batch_with_retry oracle { s' with retry_count := s'.retry_count + 1 } batch (rc + 1)
    else
      let s'' := { s' with error_count := s'.error_count + 1 }
      (if s''.enable_dlq then send_to_dlq s'' batch e else s'', none)
termination_by s.max_retries - rc
decreasing_by
  have hm := process_batch_max_retries (oracle s.attempts) s batch
  rw [h] at hm
  simp only at hm ⊢
  omega

/-- `FaultTolerantBatchConsumer.close()`: inside a `try/except` that logs and
swallows any exception, flushes the remaining `batch_buffer` (if non-empty)
through `_process_batch_with_retry` and clears it.  The `Option String`
component of the result is the exception escaping `close`, if any. -/
def close_ft (oracle : Nat → PBOutcome) (s : FaultTolerantBatchConsumer α) :
    FaultTolerantBatchConsumer α × Option String :=
  let body : FaultTolerantBatchConsumer α × Option String :=
    if s.batch_buffer.isEmpty then (s, none)
    else
      match process_batch_with_retry oracle s s.batch_buffer 0 with
      | (s', none) => ({ s' with batch_buffer := [] }, none)
      | (s', some e) => (s', some e)
  match body with
  | (s', none) => (s', none)
  | (s', some _) => (s', none)

/-- On every failing outcome, `_process_batch` leaves the consumer exactly as
it found it apart from the ghost invocation counter: the write-failure path
increments `file_counter` and rolls it back, the other two raise before any
assignment, and `_save_checkpoint` is only reached on success. -/
theorem process_batch_fail (o : PBOutcome) (s : FaultTolerantBatchConsumer α)
    (b : List α) (ho : o ≠ PBOutcome.ok) :
    (process_batch o s b).1 = { s with attempts := s.attempts + 1 } ∧
      ∃ e, (process_batch o s b).2 = some e := by
  cases o <;> simp_all [process_batch]

theorem process_batch_ok (s : FaultTolerantBatchConsumer α) (b : List α) :
    (process_batch PBOutcome.ok s b).2 = none := by
  simp [process_batch, save_checkpoint]

/-- Unfolding `_process_batch_with_retry` on a batch whose every processing
attempt fails: with `max_retries = R` and initial `retry_count` argument
`rc`, the method invokes `_process_batch` once per attempt
(`R - rc + 1` times), bumps `retry_count` once per retry, finally increments
`error_count` once, writes the batch to the DLQ exactly when `enable_dlq`,
leaves `processed_count` and `file_counter` untouched, and returns
normally. -/
theorem retry_all_fail (oracle : Nat → PBOutcome)
    (hfail : ∀ n, oracle n ≠ PBOutcome.ok) (s : FaultTolerantBatchConsumer α)
    (batch : List α) (rc : Nat) :
    (process_batch_with_retry oracle s batch rc).1.attempts
        = s.attempts + (s.max_retries - rc) + 1 ∧
    (process_batch_with_retry oracle s batch rc).1.error_count = s.error_count + 1 ∧
    (process_batch_with_retry oracle s batch rc).1.retry_count
        = s.retry_count + (s.max_retries - rc) ∧
    (process_batch_with_retry oracle s batch rc).1.processed_count = s.processed_count ∧
    (process_batch_with_retry oracle s batch rc).1.file_counter = s.file_counter ∧
    (process_batch_with_retry oracle s batch rc).1.enable_dlq = s.enable_dlq ∧
    (if s.enable_dlq then
        ∃ e, (process_batch_with_retry oracle s batch rc).1.dlq_files
          = s.dlq_files ++ [(batch, e)]
      else (process_batch_with_retry oracle s batch rc).1.dlq_files = s.dlq_files) ∧
    (process_batch_with_retry oracle s batch rc).2 = none := by
  induction s, batch, rc using process_batch_with_retry.induct oracle with
  | case1 s batch rc s' h =>
    exfalso
    obtain ⟨-, e, he⟩ := process_batch_fail (oracle s.attempts) s batch (hfail s.attempts)
    rw [h] at he
    exact Option.noConfusion he
  | case2 s batch rc s' e h hlt ih =>
    obtain ⟨hst, -⟩ := process_batch_fail (oracle s.attempts) s batch (hfail s.attempts)
    rw [h] at hst
    rw [process_batch_with_retry, h]
    dsimp only
    rw [if_pos hlt]
    subst hst
    simp only at ih ⊢
    obtain ⟨i1, i2, i3, i4, i5, i6, i7, i8⟩ := ih
    refine ⟨by omega, i2, by omega, i4, i5, i6, ?_, i8⟩
    simpa using i7
  | case3 s batch rc s' e h hge =>
    obtain ⟨hst, -⟩ := process_batch_fail (oracle s.attempts) s batch (hfail s.attempts)
    rw [h] at hst
    rw [process_batch_with_retry, h]
    dsimp only
    rw [if_neg hge]
    subst hst
    have hrc : s.max_retries - rc = 0 := by omega
    by_cases hd : s.enable_dlq <;>
      simp [send_to_dlq, hd, hrc]

/-- Both exits of `_process_batch_with_retry` (the success arm and the
exhausted-retries arm inside the `except` handler) return normally. -/
theorem retry_no_raise (oracle : Nat → PBOutcome) (s : FaultTolerantBatchConsumer α)
    (batch : List α) (rc : Nat) :
    (process_batch_with_retry oracle s batch rc).2 = none := by
  induction s, batch, rc using process_batch_with_retry.induct oracle with
  | case1 s batch rc s' h => rw [process_batch_with_retry, h]
  | case2 s batch rc s' e h hlt ih =>
    rw [process_batch_with_retry, h]
    dsimp only
    rw [if_pos hlt]
    exact ih
  | case3 s batch rc s' e h hge =>
    rw [process_batch_with_retry, h]
    dsimp only
    rw [if_neg hge]

end FaultTolerantBatchConsumer

/-! ### `measure_performance` (src/benchmark.py) -/

/-- One observable effect of `measure_performance`'s `wrapper`: a `psutil`
memory sample, a clock sample, the single call to the wrapped function with
the arguments the wrapper received, or the final report line. -/
inductive PerfEvent (α : Type)
  | memSample
  | clockSample
  | call (args : α)
  | report
deriving Repr, DecidableEq

/-- `measure_performance(func)` (src/benchmark.py): the returned `wrapper`
samples memory, samples the clock, computes `result = func(*args, **kwargs)`,
samples the clock and memory again, prints one report line, and returns
`result`.  The embedding pairs the wrapper's return value with the ordered
trace of these effects; the argument tuple `(*args, **kwargs)` is abstracted
as one value of type `α`. -/
def measure_performance (f : α → β) (args : α) : β × List (PerfEvent α) :=
  let result := f args
  (result,
    [PerfEvent.memSample, PerfEvent.clockSample, PerfEvent.call args,
     PerfEvent.clockSample, PerfEvent.memSample, PerfEvent.report])

/-- Whether a trace event is a call to the wrapped function. -/
def PerfEvent.isCall : PerfEvent α → Bool
  | .call _ => true
  | _ => false

/-! ### The Dispatcher lifecycle (modelled from the spec)

The `Disruptor` class itself comes from the external `disruptor` package and
has no source under `src/`; the definitions in this section are modelled from
the specification's state machine (§4.5, §7). -/

/-- Modelled from the spec: the Dispatcher's lifecycle states
(`NEW → RUNNING → DRAINING → CLOSED`). -/
inductive DispatcherState
  | NEW
  | RUNNING
  | DRAINING
  | CLOSED
deriving Repr, DecidableEq

/-- Modelled from the spec: the Dispatcher (`Disruptor`) as lifecycle owner —
its state, the number of registered consumers, the published items, and
whether the consumers' `close()` callbacks have been invoked. -/
structure Dispatcher (α : Type) where
  state : DispatcherState
  consumers : Nat
  published : List α
  consumersClosed : Bool
deriving Repr, DecidableEq

namespace Dispatcher

/-- A newly constructed dispatcher. -/
def mkNew (α : Type) : Dispatcher α :=
  { state := .NEW, consumers := 0, published := [], consumersClosed := false }

/-- Modelled from the spec: `register_consumer(consumer)` attaches a consumer
before the first publication and fails — as a precondition violation, with the
dispatcher unchanged — in `RUNNING`, `DRAINING` or `CLOSED`.  The second
component is the surfaced violation, if any. -/
def register_consumer (d : Dispatcher α) : Dispatcher α × Option String :=
  match d.state with
  | .NEW => ({ d with consumers := d.consumers + 1 }, none)
  | _ => (d, some "register_consumer after publication began")

/-- Modelled from the spec: `produce(items)` publishes in `NEW` (entering
`RUNNING`) or `RUNNING`, and fails — dispatcher unchanged — in `DRAINING` or
`CLOSED`. -/
def produce (d : Dispatcher α) (items : List α) : Dispatcher α × Option String :=
  match d.state with
  | .NEW => ({ d with state := .RUNNING, published := d.published ++ items }, none)
  | .RUNNING => ({ d with published := d.published ++ items }, none)
  | _ => (d, some "produce after close")

/-- Modelled from the spec: `close()` stops publications, drains every
consumer, invokes each consumer's `close()` exactly once, and ends in
`CLOSED`; a second `close()` in `CLOSED` is a no-op.  The model performs the
drain synchronously, so the transient `DRAINING` state is not observable
between calls. -/
def close (d : Dispatcher α) : Dispatcher α :=
  match d.state with
  | .CLOSED => d
  | _ => { d with state := .CLOSED, consumersClosed := true }

end Dispatcher

/-! ### The consumer worker's failure handling (modelled from the spec)

The per-consumer worker and the error-handler hook live in the external
`disruptor` package; these definitions are modelled from the specification
(§4.4 "Failure handling", §6 `consumer_error_handler`).
`src/fault_tolerant_example.py`'s `custom_error_handler` exhibits the handler
signature `(consumer, input_data, error)`. -/

/-- Modelled from the spec: what one consumer worker has observed — the
consumer's name, how many items its cursor has advanced past, the batches its
`consume` processed successfully, the `(consumer, input_batch, error)`
triples delivered to the configured error handler, and the `(batch, error)`
pairs logged when no handler is configured. -/
structure Worker (α : Type) where
  consumer : String
  cursorCount : Nat
  delivered : List (List α)
  handlerCalls : List (String × List α × String)
  logged : List (List α × String)
deriving Repr, DecidableEq

namespace Worker

/-- A worker whose consumer has seen nothing yet. -/
def initWorker (α : Type) (c : String) : Worker α :=
  { consumer := c, cursorCount := 0, delivered := [], handlerCalls := [],
    logged := [] }

/-- Modelled from the spec: delivery of one batch to the consumer's `consume`
callback, whose outcome (`none` = returned, `some e` = raised `e`) is an
oracle input.  On an exception the worker delivers
`(consumer, input_batch, error)` to the error handler when one is configured
(`handler = true`) and logs the error otherwise; in either case it then
advances its cursor past the failing batch without retrying it. -/
def deliverBatch (handler : Bool) (w : Worker α) (batch : List α)
    (outcome : Option String) : Worker α :=
  match outcome with
  | none =>
    { w with delivered := w.delivered ++ [batch]
             cursorCount := w.cursorCount + batch.length }
  | some e =>
    if handler then
      { w with handlerCalls := w.handlerCalls ++ [(w.consumer, batch, e)]
               cursorCount := w.cursorCount + batch.length }
    else
      { w with logged := w.logged ++ [(batch, e)]
               cursorCount := w.cursorCount + batch.length }

/-- A worker run: batches delivered in order, each with its `consume`
outcome. -/
def runWorker (handler : Bool) (w : Worker α) (steps : List (List α × Option String)) :
    Worker α :=
  steps.foldl (fun w p => deliverBatch handler w p.1 p.2) w

theorem runWorker_accum (handler : Bool) (w : Worker α)
    (steps : List (List α × Option String)) :
    (runWorker handler w steps).consumer = w.consumer ∧
    (runWorker handler w steps).cursorCount
        = w.cursorCount + (steps.map (fun p => p.1.length)).sum ∧
    (runWorker handler w steps).handlerCalls
        = w.handlerCalls ++
          (if handler then
            steps.filterMap (fun p => p.2.map (fun e => (w.consumer, p.1, e)))
          else []) ∧
    (runWorker handler w steps).logged
        = w.logged ++
          (if handler then []
           else steps.filterMap (fun p => p.2.map (fun e => (p.1, e)))) ∧
    (runWorker handler w steps).delivered
        = w.delivered ++
          steps.filterMap (fun p => match p.2 with | none => some p.1 | some _ => none) := by
  induction steps generalizing w with
  | nil => simp [runWorker]
  | cons p rest ih =>
    obtain ⟨batch, outcome⟩ := p
    have step : runWorker handler w ((batch, outcome) :: rest)
        = runWorker handler (deliverBatch handler w batch outcome) rest := by
      simp [runWorker]
    rw [step]
    obtain ⟨i1, i2, i3, i4, i5⟩ := ih (deliverBatch handler w batch outcome)
    cases outcome with
    | none =>
      refine ⟨?_, ?_, ?_, ?_, ?_⟩ <;>
        simp_all [deliverBatch, Nat.add_assoc]
    | some e =>
      cases handler <;>
        refine ⟨?_, ?_, ?_, ?_, ?_⟩ <;>
          simp_all [deliverBatch, Nat.add_assoc]

end Worker

/-- Modelled from the spec (scenario S5): one singleton batch per produced
integer `0..99`, the consumer raising on every multiple of 7 (`0` counts). -/
def s5_steps : List (List Nat × Option String) :=
  (List.range 100).map
    (fun i => ([i], if i % 7 = 0 then some "multiple of 7" else none))

/-- Modelled from the spec (scenario S5, the test's fixed convention): the
consumer raises on every multiple of 7 other than `0`. -/
def s5_steps_excl : List (List Nat × Option String) :=
  (List.range 100).map
    (fun i => ([i], if i % 7 = 0 ∧ i ≠ 0 then some "multiple of 7" else none))

/-! ### The Disruptor core (modelled from the spec)

The ring buffer, cursor set and barrier live in the external `disruptor`
package; no core source is under `src/`.  The definitions here are modelled
from the specification (§3 data model and invariants, §4.2–§4.4, §5 ordering
guarantees).  Sequences are `0, 1, 2, …` in publication order; a cursor is
the spec's −1-based highest-sequence integer. -/

/-- Modelled from the spec: the core's observable state — the fixed capacity,
the items published so far in publication order (the item of sequence `j` is
`published.get j`), and, per registered consumer, the batches delivered to
its `consume` callback in order.  A consumer's cursor is determined by its
history: it has finished exactly the items its delivered batches contain. -/
structure Core (α : Type) where
  capacity : Nat
  published : List α
  histories : List (List (List α))
deriving Repr, DecidableEq

namespace Core

/-- Modelled from the spec: the producer cursor, the highest published
sequence, `−1` when nothing is published. -/
def producer_cursor (s : Core α) : Int :=
  (s.published.length : Int) - 1

/-- Modelled from the spec: a consumer's cursor, the highest sequence it has
finished processing, read off from its delivered batches. -/
def cursorOf (h : List (List α)) : Int :=
  (h.flatten.length : Int) - 1

/-- The consumer cursors, one per registered consumer. -/
def cursors (s : Core α) : List Int :=
  s.histories.map cursorOf

/-- Modelled from the spec: the gating sequence,
`min(consumer_cursor_i)` over the registered consumers.  (The spec leaves the
consumerless case unspecified; the model then uses the producer cursor, and
every statement below assumes at least one consumer.) -/
def gating_sequence (s : Core α) : Int :=
  match cursors s with
  | [] => producer_cursor s
  | c :: cs => cs.foldr min c

/-- Modelled from the spec: the freshly constructed bus with `n` consumers
registered before the first publication: nothing published, every history
empty (all cursors `−1`). -/
def start (α : Type) (capacity n : Nat) : Core α :=
  { capacity := capacity, published := [], histories := List.replicate n [] }

/-- The batch the worker of consumer `i` forms when it advances to sequence
`k`: the published items from `consumer_cursor + 1` up to `k`, in order. -/
def batchFor (s : Core α) (i : Nat) (hi : i < s.histories.length) (k : Nat) : List α :=
  (s.published.drop (s.histories.get ⟨i, hi⟩).flatten.length).take
    (k - (s.histories.get ⟨i, hi⟩).flatten.length)

/-- The state after that batch is delivered to consumer `i`'s callback and the
worker advances its cursor to `k`. -/
def deliver (s : Core α) (i : Nat) (hi : i < s.histories.length) (k : Nat) : Core α :=
  { s with
    histories := s.histories.set i ((s.histories.get ⟨i, hi⟩) ++ [batchFor s i hi k]) }

/-- Modelled from the spec: one observable transition of the core.

* `publish`: a producer claims the next sequence `s₀ = producer_cursor + 1` —
  permitted only when `s₀ − capacity < gating_sequence`, the barrier
  condition — writes the item and publishes it.
* `consume`: the worker of consumer `i` forms the batch of sequences
  `consumer_cursor + 1 … k` for some `k ≤ producer_cursor` with at least one
  new sequence, delivers it to the consumer's callback, and advances the
  consumer's cursor to `k`. -/
inductive Step (α : Type) : Core α → Core α → Prop
  | publish (s : Core α) (x : α)
      (hgate : producer_cursor s + 1 - (s.capacity : Int) < gating_sequence s) :
      Step α s { s with published := s.published ++ [x] }
  | consume (s : Core α) (i : Nat) (hi : i < s.histories.length) (k : Nat)
      (hlow : (s.histories.get ⟨i, hi⟩).flatten.length < k)
      (hhigh : k ≤ s.published.length) :
      Step α s (deliver s i hi k)

/-- The states an execution can reach from `start`. -/
def Reachable (α : Type) (capacity n : Nat) (s : Core α) : Prop :=
  Relation.ReflTransGen (Step α) (start α capacity n) s

/-- The inductive invariant behind broadcast completeness: each consumer's
delivered batches concatenate to a prefix of the publication sequence — the
first `cursor + 1` items, with no gap, no duplicate and no reordering. -/
def PrefixInv (s : Core α) : Prop :=
  ∀ i (hi : i < s.histories.length),
    (s.histories.get ⟨i, hi⟩).flatten
      = s.published.take (s.histories.get ⟨i, hi⟩).flatten.length

/-- The inductive invariant behind backpressure: no consumer is more than
`capacity` behind the producer. -/
def GapInv (s : Core α) : Prop :=
  ∀ i (hi : i < s.histories.length),
    producer_cursor s - cursorOf (s.histories.get ⟨i, hi⟩) ≤ (s.capacity : Int)

theorem foldrMin_le (c : Int) (cs : List Int) : ∀ x ∈ c :: cs, cs.foldr min c ≤ x := by
  induction cs generalizing c with
  | nil => intro x hx; simp at hx; subst hx; simp
  | cons d ds ih =>
    intro x hx
    simp only [List.foldr_cons]
    rcases List.mem_cons.mp hx with rfl | hx'
    · calc min d (ds.foldr min x) ≤ ds.foldr min x := min_le_right _ _
        _ ≤ x := ih x x (List.mem_cons_self x ds)
    · rcases List.mem_cons.mp hx' with rfl | hx''
      · exact min_le_left _ _
      · calc min d (ds.foldr min c) ≤ ds.foldr min c := min_le_right _ _
          _ ≤ x := ih c x (List.mem_cons_of_mem c hx'')

theorem foldrMin_mem (c : Int) (cs : List Int) : cs.foldr min c ∈ c :: cs := by
  induction cs generalizing c with
  | nil => simp
  | cons d ds ih =>
    simp only [List.foldr_cons]
    rcases min_choice d (ds.foldr min c) with h | h
    · rw [h]; simp
    · rw [h]
      rcases List.mem_cons.mp (ih c) with h' | h'
      · rw [h']; simp
      · exact List.mem_cons_of_mem c (List.mem_cons_of_mem d h')

/-- The gating sequence is at most each consumer's cursor. -/
theorem gating_le_cursor (s : Core α) (i : Nat) (hi : i < s.histories.length) :
    gating_sequence s ≤ cursorOf (s.histories.get ⟨i, hi⟩) := by
  have hmem : cursorOf (s.histories.get ⟨i, hi⟩) ∈ cursors s :=
    List.mem_map_of_mem cursorOf (s.histories.get_mem i hi)
  rw [gating_sequence]
  rcases hcur : cursors s with _ | ⟨c, cs⟩
  · rw [hcur] at hmem; exact absurd hmem (List.not_mem_nil _)
  · rw [hcur] at hmem; exact foldrMin_le c cs _ hmem

/-- For at least one consumer, the gating sequence is that consumer's
cursor. -/
theorem gating_attained (s : Core α) (hne : s.histories ≠ []) :
    ∃ i, ∃ hi : i < s.histories.length,
      gating_sequence s = cursorOf (s.histories.get ⟨i, hi⟩) := by
  have hne' : cursors s ≠ [] := by
    simpa [cursors] using hne
  rcases hcur : cursors s with _ | ⟨c, cs⟩
  · exact absurd hcur hne'
  · have hmem : cs.foldr min c ∈ cursors s := by
      rw [hcur]; exact foldrMin_mem c cs
    rw [cursors] at hmem
    rcases List.mem_map.mp hmem with ⟨h, hh, heq⟩
    obtain ⟨n, hget⟩ := List.mem_iff_get.mp hh
    obtain ⟨i, hi⟩ := n
    refine ⟨i, hi, ?_⟩
    rw [gating_sequence, hcur]
    dsimp only
    rw [hget, heq]

theorem prefixInv_start (α : Type) (capacity n : Nat) : PrefixInv (start α capacity n) := by
  intro i hi
  simp only [start] at hi ⊢
  have : (List.replicate n ([] : List (List α))).get ⟨i, hi⟩ = [] := by simp
  simp [this]

theorem prefixInv_step {s t : Core α} (hst : Step α s t) (h : PrefixInv s) : PrefixInv t := by
  cases hst with
  | publish x hgate =>
    intro i hi
    simp only at hi ⊢
    have heq := h i hi
    have hlen : (s.histories.get ⟨i, hi⟩).flatten.length ≤ s.published.length := by
      have hl := congrArg List.length heq
      rw [List.length_take] at hl
      omega
    rw [heq, List.length_take, Nat.min_eq_left hlen, List.take_append_of_le_length hlen]
  | consume i hi k hlow hhigh =>
    intro j hj
    have hj' : j < s.histories.length := by
      simpa [deliver] using hj
    by_cases hij : i = j
    · subst hij
      have hget : (deliver s i hi k).histories.get ⟨i, hj⟩
          = (s.histories.get ⟨i, hi⟩) ++ [batchFor s i hi k] := by
        simp [deliver, List.get_eq_getElem]
      have heq := h i hi
      have hc : (s.histories.get ⟨i, hi⟩).flatten.length ≤ k := Nat.le_of_lt hlow
      have hflat : ((s.histories.get ⟨i, hi⟩) ++ [batchFor s i hi k]).flatten
          = s.published.take k := by
        simp only [List.flatten_append, List.flatten_cons, List.flatten_nil,
          List.append_nil]
        rw [heq, batchFor]
        rw [← List.take_add]
        congr 1
        omega
      have hflatlen : ((s.histories.get ⟨i, hi⟩) ++ [batchFor s i hi k]).flatten.length
          = k := by
        rw [hflat]
        simp
        omega
      rw [hget, hflatlen, hflat]
      simp [deliver]
    · have hget : (deliver s i hi k).histories.get ⟨j, hj⟩
          = s.histories.get ⟨j, hj'⟩ := by
        simp [deliver, List.get_eq_getElem, List.getElem_set_ne, hij]
      rw [hget]
      have := h j hj'
      simpa [deliver] using this

theorem reachable_prefixInv {s : Core α} {capacity n : Nat}
    (h : Reachable α capacity n s) : PrefixInv s := by
  induction h with
  | refl => exact prefixInv_start α capacity n
  | tail _ hst ih => exact prefixInv_step hst ih

theorem gapInv_start (α : Type) (capacity n : Nat) : GapInv (start α capacity n) := by
  intro i hi
  have hget : (start α capacity n).histories.get ⟨i, hi⟩ = [] := by
    simp [start]
  rw [hget]
  simp only [producer_cursor, cursorOf, start, List.length_nil]
  omega

theorem producer_cursor_publish (s : Core α) (x : α) :
    producer_cursor { s with published := s.published ++ [x] } = producer_cursor s + 1 := by
  simp [producer_cursor]

theorem gapInv_step {s t : Core α} (hst : Step α s t) (h : GapInv s) : GapInv t := by
  cases hst with
  | publish x hgate =>
    intro i hi
    have hi' : i < s.histories.length := hi
    have hle := gating_le_cursor s i hi'
    have hprod : producer_cursor ({ s with published := s.published ++ [x] } : Core α)
        = producer_cursor s + 1 := producer_cursor_publish s x
    have hget : ({ s with published := s.published ++ [x] } : Core α).histories.get ⟨i, hi⟩
        = s.histories.get ⟨i, hi'⟩ := rfl
    have hcap : ({ s with published := s.published ++ [x] } : Core α).capacity
        = s.capacity := rfl
    rw [hprod, hget, hcap]
    omega
  | consume i hi k hlow hhigh =>
    intro j hj
    have hj' : j < s.histories.length := by
      simpa [deliver] using hj
    have hprod : producer_cursor (deliver s i hi k) = producer_cursor s := rfl
    have hcap : (deliver s i hi k).capacity = s.capacity := rfl
    by_cases hij : i = j
    · subst hij
      have hget : (deliver s i hi k).histories.get ⟨i, hj⟩
          = (s.histories.get ⟨i, hi⟩) ++ [batchFor s i hi k] := by
        simp [deliver, List.get_eq_getElem]
      have hmono : cursorOf ((s.histories.get ⟨i, hi⟩) ++ [batchFor s i hi k])
          ≥ cursorOf (s.histories.get ⟨i, hi⟩) := by
        simp only [cursorOf, List.flatten_append, List.flatten_cons, List.flatten_nil,
          List.append_nil, List.length_append]
        omega
      have := h i hi
      rw [hprod, hcap, hget]
      omega
    · have hget : (deliver s i hi k).histories.get ⟨j, hj⟩
          = s.histories.get ⟨j, hj'⟩ := by
        simp [deliver, List.get_eq_getElem, List.getElem_set_ne, hij]
      rw [hprod, hcap, hget]
      exact h j hj'

theorem reachable_gapInv {s : Core α} {capacity n : Nat}
    (h : Reachable α capacity n s) : GapInv s := by
  induction h with
  | refl => exact gapInv_start α capacity n
  | tail _ hst ih => exact gapInv_step hst ih

theorem histories_length_reachable {s : Core α} {capacity n : Nat}
    (h : Reachable α capacity n s) : s.histories.length = n := by
  induction h with
  | refl => simp [start]
  | tail _ hst ih =>
    cases hst with
    | publish x hgate => simpa using ih
    | consume i hi k hlow hhigh => simpa [deliver] using ih

end Core

/-! ## The claims -/

/-- **C3.** For every `BatchJsonConsumer` with `batch_size = B ≥ 1` and every
sequence of `consume(elements)` calls followed by exactly one `close()`: the
concatenation of the batches passed to `_process_batch` equals, in order, the
concatenation of all elements passed to `consume`; every batch processed from
within `consume` has exactly `B` elements; after `close()` returns,
`batch_buffer` is empty and `processed_count` equals the total number of
elements ever passed to `consume`. -/
theorem claim_C3_batch_json_consumer (α : Type) (B : Nat) (hB : 0 < B)
    (inputs : List (List α)) :
    (BatchJsonConsumer.close
        (BatchJsonConsumer.runConsumes (BatchJsonConsumer.init α B) inputs)).history.flatten
      = inputs.flatten ∧
    (∀ b ∈ (BatchJsonConsumer.runConsumes (BatchJsonConsumer.init α B) inputs).history,
      b.length = B) ∧
    (BatchJsonConsumer.close
        (BatchJsonConsumer.runConsumes (BatchJsonConsumer.init α B) inputs)).batch_buffer
      = [] ∧
    (BatchJsonConsumer.close
        (BatchJsonConsumer.runConsumes (BatchJsonConsumer.init α B) inputs)).processed_count
      = inputs.flatten.length := by
  have hInv : BatchJsonConsumer.Inv B (BatchJsonConsumer.init α B) :=
    ⟨rfl, rfl, by simp [BatchJsonConsumer.init]⟩
  obtain ⟨⟨hsz, hpc, hall⟩, hcontent⟩ := BatchJsonConsumer.runConsumes_inv hInv inputs
  have hcontent' :
      (BatchJsonConsumer.runConsumes (BatchJsonConsumer.init α B) inputs).history.flatten ++
        (BatchJsonConsumer.runConsumes (BatchJsonConsumer.init α B) inputs).batch_buffer
      = inputs.flatten := by
    simpa [BatchJsonConsumer.init] using hcontent
  refine ⟨?_, hall, BatchJsonConsumer.close_buffer _, ?_⟩
  · rw [BatchJsonConsumer.close_history]
    exact hcontent'
  · rw [BatchJsonConsumer.close_count, hpc]
    have hlen := congrArg List.length hcontent'
    rw [List.length_append] at hlen
    exact hlen

/-- Witness for C3: `B = 2` and the `consume` inputs `[1,2,3]` then `[4]`. -/
theorem claim_C3_witness :
    0 < 2 ∧
    ((BatchJsonConsumer.close
        (BatchJsonConsumer.runConsumes (BatchJsonConsumer.init Nat 2)
          [[1, 2, 3], [4]])).history.flatten
      = ([[1, 2, 3], [4]] : List (List Nat)).flatten ∧
    (∀ b ∈ (BatchJsonConsumer.runConsumes (BatchJsonConsumer.init Nat 2)
        [[1, 2, 3], [4]]).history, b.length = 2) ∧
    (BatchJsonConsumer.close
        (BatchJsonConsumer.runConsumes (BatchJsonConsumer.init Nat 2)
          [[1, 2, 3], [4]])).batch_buffer
      = [] ∧
    (BatchJsonConsumer.close
        (BatchJsonConsumer.runConsumes (BatchJsonConsumer.init Nat 2)
          [[1, 2, 3], [4]])).processed_count
      = ([[1, 2, 3], [4]] : List (List Nat)).flatten.length) :=
  ⟨by decide, claim_C3_batch_json_consumer Nat 2 (by decide) [[1, 2, 3], [4]]⟩

/-- **C4.** For every `FaultTolerantBatchConsumer` with `max_retries = R`: if
`_process_batch` raises on every invocation for a given batch, then
`_process_batch_with_retry(batch)` invokes `_process_batch` exactly `R + 1`
times, increments `error_count` by exactly 1, writes the batch to exactly one
DLQ file when `enable_dlq` is true, and returns normally without re-raising
the exception. -/
theorem claim_C4_retry_bound (α : Type) (oracle : Nat → PBOutcome)
    (hfail : ∀ n, oracle n ≠ PBOutcome.ok) (s : FaultTolerantBatchConsumer α)
    (batch : List α) :
    (FaultTolerantBatchConsumer.process_batch_with_retry oracle s batch 0).1.attempts
      = s.attempts + s.max_retries + 1 ∧
    (FaultTolerantBatchConsumer.process_batch_with_retry oracle s batch 0).1.error_count
      = s.error_count + 1 ∧
    (s.enable_dlq = true →
      ∃ e, (FaultTolerantBatchConsumer.process_batch_with_retry oracle s batch 0).1.dlq_files
        = s.dlq_files ++ [(batch, e)]) ∧
    (s.enable_dlq = false →
      (FaultTolerantBatchConsumer.process_batch_with_retry oracle s batch 0).1.dlq_files
        = s.dlq_files) ∧
    (FaultTolerantBatchConsumer.process_batch_with_retry oracle s batch 0).2 = none := by
  obtain ⟨h1, h2, h3, h4, h5, h6, h7, h8⟩ :=
    FaultTolerantBatchConsumer.retry_all_fail oracle hfail s batch 0
  refine ⟨by simpa using h1, h2, ?_, ?_, h8⟩
  · intro hd
    rw [if_pos hd] at h7
    exact h7
  · intro hd
    rw [hd] at h7
    simpa using h7

/-- Witness for C4: the always-failing oracle, a fresh consumer with
`max_retries = 3` and DLQ enabled, and the batch `[7]`. -/
theorem claim_C4_witness :
    (∀ n : Nat, (fun _ => PBOutcome.simulated) n ≠ PBOutcome.ok) ∧
    ((FaultTolerantBatchConsumer.process_batch_with_retry (fun _ => PBOutcome.simulated)
        (FaultTolerantBatchConsumer.init Nat 10 3 true) [7] 0).1.attempts
      = (FaultTolerantBatchConsumer.init Nat 10 3 true).attempts
          + (FaultTolerantBatchConsumer.init Nat 10 3 true).max_retries + 1 ∧
    (FaultTolerantBatchConsumer.process_batch_with_retry (fun _ => PBOutcome.simulated)
        (FaultTolerantBatchConsumer.init Nat 10 3 true) [7] 0).1.error_count
      = (FaultTolerantBatchConsumer.init Nat 10 3 true).error_count + 1 ∧
    ((FaultTolerantBatchConsumer.init Nat 10 3 true).enable_dlq = true →
      ∃ e, (FaultTolerantBatchConsumer.process_batch_with_retry (fun _ => PBOutcome.simulated)
          (FaultTolerantBatchConsumer.init Nat 10 3 true) [7] 0).1.dlq_files
        = (FaultTolerantBatchConsumer.init Nat 10 3 true).dlq_files ++ [([7], e)]) ∧
    ((FaultTolerantBatchConsumer.init Nat 10 3 true).enable_dlq = false →
      (FaultTolerantBatchConsumer.process_batch_with_retry (fun _ => PBOutcome.simulated)
          (FaultTolerantBatchConsumer.init Nat 10 3 true) [7] 0).1.dlq_files
        = (FaultTolerantBatchConsumer.init Nat 10 3 true).dlq_files) ∧
    (FaultTolerantBatchConsumer.process_batch_with_retry (fun _ => PBOutcome.simulated)
        (FaultTolerantBatchConsumer.init Nat 10 3 true) [7] 0).2 = none) :=
  ⟨fun _ h => PBOutcome.noConfusion h,
    claim_C4_retry_bound Nat (fun _ => PBOutcome.simulated) (fun _ h => PBOutcome.noConfusion h)
      (FaultTolerantBatchConsumer.init Nat 10 3 true) [7]⟩

/-- **C7.** Non-fatal close: for every reachable state of a
`FaultTolerantBatchConsumer` and every behaviour of `_process_batch`
(the oracle), `close()` returns normally — it never propagates an exception
to its caller, including when flushing the remaining `batch_buffer` fails on
every attempt. -/
theorem claim_C7_close_nonfatal (α : Type) (oracle : Nat → PBOutcome)
    (s : FaultTolerantBatchConsumer α) :
    (FaultTolerantBatchConsumer.close_ft oracle s).2 = none := by
  by_cases hb : s.batch_buffer.isEmpty
  · simp [FaultTolerantBatchConsumer.close_ft, hb]
  · have hn := FaultTolerantBatchConsumer.retry_no_raise oracle s s.batch_buffer 0
    rcases hEq : FaultTolerantBatchConsumer.process_batch_with_retry oracle s s.batch_buffer 0
      with ⟨s', e⟩
    rw [hEq] at hn
    simp only at hn
    subst hn
    simp [FaultTolerantBatchConsumer.close_ft, hb, hEq]

/-- **C8.** Atomicity of `FaultTolerantBatchConsumer._process_batch` on
failure: whenever it raises (simulated error, DataFrame construction failure,
or Parquet write failure), `processed_count` and `file_counter` hold the same
values after the raise as before the call (the write-failure path explicitly
rolls `file_counter` back), and no checkpoint is saved for the failed
batch. -/
theorem claim_C8_process_batch_atomic (α : Type) (o : PBOutcome)
    (s : FaultTolerantBatchConsumer α) (batch : List α)
    (hraise : (FaultTolerantBatchConsumer.process_batch o s batch).2 ≠ none) :
    (FaultTolerantBatchConsumer.process_batch o s batch).1.processed_count
      = s.processed_count ∧
    (FaultTolerantBatchConsumer.process_batch o s batch).1.file_counter
      = s.file_counter ∧
    (FaultTolerantBatchConsumer.process_batch o s batch).1.checkpoints
      = s.checkpoints := by
  have ho : o ≠ PBOutcome.ok := by
    intro h
    subst h
    exact hraise (FaultTolerantBatchConsumer.process_batch_ok s batch)
  obtain ⟨hst, -⟩ := FaultTolerantBatchConsumer.process_batch_fail o s batch ho
  rw [hst]
  exact ⟨rfl, rfl, rfl⟩

/-- Witness for C8: the Parquet-write failure on a fresh consumer and the
batch `[1, 2]`. -/
theorem claim_C8_witness :
    ((FaultTolerantBatchConsumer.process_batch PBOutcome.writeError
        (FaultTolerantBatchConsumer.init Nat 10 3 true) [1, 2]).2 ≠ none) ∧
    ((FaultTolerantBatchConsumer.process_batch PBOutcome.writeError
        (FaultTolerantBatchConsumer.init Nat 10 3 true) [1, 2]).1.processed_count
      = (FaultTolerantBatchConsumer.init Nat 10 3 true).processed_count ∧
    (FaultTolerantBatchConsumer.process_batch PBOutcome.writeError
        (FaultTolerantBatchConsumer.init Nat 10 3 true) [1, 2]).1.file_counter
      = (FaultTolerantBatchConsumer.init Nat 10 3 true).file_counter ∧
    (FaultTolerantBatchConsumer.process_batch PBOutcome.writeError
        (FaultTolerantBatchConsumer.init Nat 10 3 true) [1, 2]).1.checkpoints
      = (FaultTolerantBatchConsumer.init Nat 10 3 true).checkpoints) :=
  ⟨by decide,
    claim_C8_process_batch_atomic Nat PBOutcome.writeError
      (FaultTolerantBatchConsumer.init Nat 10 3 true) [1, 2] (by decide)⟩

/-- **C10.** The `measure_performance` decorator is result-preserving: for
every function and argument, the wrapper calls the function exactly once with
exactly those arguments and returns exactly the value the function returned;
the timing and memory reporting are side effects only. -/
theorem claim_C10_measure_performance (α β : Type) (f : α → β) (args : α) :
    (measure_performance f args).1 = f args ∧
    (measure_performance f args).2.filter PerfEvent.isCall = [PerfEvent.call args] :=
  ⟨rfl, rfl⟩

/-- **C5.** Dispatcher lifecycle misuse (modelled from the spec):
`register_consumer` fails in `RUNNING`, `DRAINING` and `CLOSED` — the states
other than `NEW`, i.e. once any `produce` has occurred or shutdown has begun;
`produce` fails in `DRAINING` and `CLOSED`; each such failure leaves the
dispatcher unchanged; and `close()` is idempotent, a second `close()` in
`CLOSED` being a no-op. -/
theorem claim_C5_lifecycle (α : Type) (d : Dispatcher α) :
    (d.state ≠ DispatcherState.NEW →
      Dispatcher.register_consumer d
        = (d, some "register_consumer after publication began")) ∧
    (∀ items : List α,
      (d.state = DispatcherState.DRAINING ∨ d.state = DispatcherState.CLOSED) →
      Dispatcher.produce d items = (d, some "produce after close")) ∧
    Dispatcher.close (Dispatcher.close d) = Dispatcher.close d ∧
    (d.state = DispatcherState.CLOSED → Dispatcher.close d = d) := by
  obtain ⟨st, c, p, cc⟩ := d
  cases st <;>
    simp [Dispatcher.register_consumer, Dispatcher.produce, Dispatcher.close]

/-- **C6.** Error-handler routing (modelled from the spec): for every
exception raised from a consumer's `consume` callback, the configured
`consumer_error_handler` is invoked with the triple
`(consumer, input_batch, error)`; after the handler returns, that consumer's
worker advances its cursor past the failing batch without retrying it (the
cursor ends at the total length of all delivered batches, and each failing
batch produces exactly one handler call); when no handler is configured the
error is logged and the batch skipped. -/
theorem claim_C6_error_routing (α : Type) (c : String)
    (steps : List (List α × Option String)) :
    (Worker.runWorker true (Worker.initWorker α c) steps).handlerCalls
      = steps.filterMap (fun p => p.2.map (fun e => (c, p.1, e))) ∧
    (Worker.runWorker true (Worker.initWorker α c) steps).cursorCount
      = (steps.map (fun p => p.1.length)).sum ∧
    (Worker.runWorker false (Worker.initWorker α c) steps).handlerCalls = [] ∧
    (Worker.runWorker false (Worker.initWorker α c) steps).logged
      = steps.filterMap (fun p => p.2.map (fun e => (p.1, e))) ∧
    (Worker.runWorker false (Worker.initWorker α c) steps).cursorCount
      = (steps.map (fun p => p.1.length)).sum := by
  obtain ⟨t1, t2, t3, t4, t5⟩ := Worker.runWorker_accum true (Worker.initWorker α c) steps
  obtain ⟨f1, f2, f3, f4, f5⟩ := Worker.runWorker_accum false (Worker.initWorker α c) steps
  refine ⟨?_, ?_, ?_, ?_, ?_⟩ <;> simp_all [Worker.initWorker]

/-- **C9.** Scenario S5 failure count (modelled from the spec): producing the
integers `0..99` as singleton batches against a consumer whose callback
raises on every item that is a multiple of 7 invokes the counting error
handler exactly 15 times (once per element of `{0, 7, 14, …, 98}`); under the
test's fixed convention "multiples of 7 excluding 0", the handler is invoked
exactly 14 times. -/
theorem claim_C9_s5_counts :
    (Worker.runWorker true (Worker.initWorker Nat "consumer") s5_steps).handlerCalls.length
      = 15 ∧
    (Worker.runWorker true (Worker.initWorker Nat "consumer") s5_steps_excl).handlerCalls.length
      = 14 :=
  ⟨rfl, rfl⟩

/-- **C1.** Broadcast completeness (modelled from the spec): in every
reachable execution state of the core, the concatenation of the batches
delivered to a registered consumer is a prefix of the publication sequence,
and once that consumer has drained to the producer cursor it equals the full
publication sequence, in publication order, with no gaps and no
duplicates. -/
theorem claim_C1_broadcast_completeness (α : Type) (capacity n : Nat) (s : Core α)
    (hreach : Core.Reachable α capacity n s) (i : Nat) (hi : i < s.histories.length)
    (hdrained : (s.histories.get ⟨i, hi⟩).flatten.length = s.published.length) :
    (s.histories.get ⟨i, hi⟩).flatten = s.published := by
  have hpre := Core.reachable_prefixInv hreach i hi
  rw [hpre, hdrained, List.take_length]

/-- Witness for C1: capacity 2, one consumer, one publication, one delivered
batch. -/
theorem claim_C1_witness :
    Core.Reachable Nat 2 1 ⟨2, [5], [[[5]]]⟩ ∧
    ((⟨2, [5], [[[5]]]⟩ : Core Nat).histories.get ⟨0, by decide⟩).flatten
      = (⟨2, [5], [[[5]]]⟩ : Core Nat).published := by
  have h1 : Core.Step Nat (Core.start Nat 2 1) ⟨2, [5], [[]]⟩ :=
    Core.Step.publish (Core.start Nat 2 1) 5 (by decide)
  have h2 : Core.Step Nat (⟨2, [5], [[]]⟩ : Core Nat) ⟨2, [5], [[[5]]]⟩ :=
    Core.Step.consume ⟨2, [5], [[]]⟩ 0 (by decide) 1 (by decide) (by decide)
  have hr : Core.Reachable Nat 2 1 ⟨2, [5], [[[5]]]⟩ :=
    Relation.ReflTransGen.tail (Relation.ReflTransGen.tail Relation.ReflTransGen.refl h1) h2
  exact ⟨hr,
    claim_C1_broadcast_completeness Nat 2 1 ⟨2, [5], [[[5]]]⟩ hr 0 (by decide) (by decide)⟩

/-- **C2.** Backpressure invariant (modelled from the spec): at every
reachable state of any execution of the bus with at least one registered
consumer, `producer_cursor − gating_sequence ≤ capacity` — a producer never
publishes more than `capacity` items ahead of the slowest registered
consumer, so it never overwrites a slot still unread by any consumer. -/
theorem claim_C2_backpressure (α : Type) (capacity n : Nat) (s : Core α)
    (hreach : Core.Reachable α capacity n s) (hne : s.histories ≠ []) :
    Core.producer_cursor s - Core.gating_sequence s ≤ (s.capacity : Int) := by
  obtain ⟨i, hi, hg⟩ := Core.gating_attained s hne
  have hgap := Core.reachable_gapInv hreach i hi
  rw [hg]
  exact hgap

/-- Witness for C2: capacity 2, one consumer, one publication not yet
consumed; the producer is 1 ahead of the gating sequence, within capacity. -/
theorem claim_C2_witness :
    Core.Reachable Nat 2 1 ⟨2, [5], [[]]⟩ ∧
    (⟨2, [5], [[]]⟩ : Core Nat).histories ≠ [] ∧
    Core.producer_cursor ⟨2, [5], [[]]⟩ - Core.gating_sequence ⟨2, [5], [[]]⟩
      ≤ (((⟨2, [5], [[]]⟩ : Core Nat)).capacity : Int) := by
  have h1 : Core.Step Nat (Core.start Nat 2 1) ⟨2, [5], [[]]⟩ :=
    Core.Step.publish (Core.start Nat 2 1) 5 (by decide)
  have hr : Core.Reachable Nat 2 1 ⟨2, [5], [[]]⟩ :=
    Relation.ReflTransGen.tail Relation.ReflTransGen.refl h1
  exact ⟨hr, by decide, claim_C2_backpressure Nat 2 1 ⟨2, [5], [[]]⟩ hr (by decide)⟩

end DisruptorExample
